import Mathlib

/-!
Verification development for a WebSocket client library.

The definitions below are a shallow embedding of the TypeScript sources:
`WebSocketClient` (connection lifecycle, outbound queue, event registry,
topic layer) and `PakoCompressor`.  JavaScript strings are modelled as
`List Char`, byte sequences as `List Nat`, JSON values as the inductive
type `Json` (with numbers restricted to integers), and the stateful class
as explicit state passing over `ClientState`.
-/

namespace WSClient

/-- JSON values as produced/consumed by `JSON.stringify` / `JSON.parse`.
Numbers are modelled as integers. -/
inductive Json where
  | null : Json
  | bool (b : Bool) : Json
  | num (n : Int) : Json
  | str (s : List Char) : Json
  | arr (elems : List Json) : Json
  | obj (members : List (List Char × Json)) : Json
  deriving Repr

/-- Decimal digits of a natural number, most significant first
(the digit list `JSON.stringify` prints). -/
def renderNatDigits (n : Nat) : List Char :=
  if n = 0 then ['0'] else (Nat.digits 10 n).reverse.map Nat.digitChar

/-- Decimal rendering of an integer. -/
def renderInt (i : Int) : List Char :=
  if i < 0 then '-' :: renderNatDigits i.natAbs else renderNatDigits i.natAbs

/-- String-literal escaping used by `JSON.stringify`. -/
def escapeChar (c : Char) : List Char :=
  if c = '"' then ['\\', '"']
  else if c = '\\' then ['\\', '\\']
  else if c = '\n' then ['\\', 'n']
  else if c = '\r' then ['\\', 'r']
  else if c = '\t' then ['\\', 't']
  else [c]

/-- Rendering of a JSON string literal, quotes included. -/
def renderString (s : List Char) : List Char :=
  '"' :: (s.flatMap escapeChar ++ ['"'])

/-- The characters of the `null` keyword. -/
def nullChars : List Char := ['n', 'u', 'l', 'l']

/-- The characters of the `true` keyword. -/
def trueChars : List Char := ['t', 'r', 'u', 'e']

/-- The characters of the `false` keyword. -/
def falseChars : List Char := ['f', 'a', 'l', 's', 'e']

mutual

/-- `JSON.stringify` (compact form, no whitespace). -/
def render : Json → List Char
  | .null => nullChars
  | .bool true => trueChars
  | .bool false => falseChars
  | .num i => renderInt i
  | .str s => renderString s
  | .arr es => '[' :: (renderElems es ++ [']'])
  | .obj ms => '\x7b' :: (renderMembers ms ++ ['\x7d'])
termination_by j => sizeOf j
decreasing_by all_goals (simp_wf <;> omega)

/-- Comma-separated rendering of an array body. -/
def renderElems : List Json → List Char
  | [] => []
  | [x] => render x
  | x :: y :: ys => render x ++ ',' :: renderElems (y :: ys)
termination_by es => sizeOf es
decreasing_by all_goals (simp_wf <;> omega)

/-- Comma-separated rendering of an object body. -/
def renderMembers : List (List Char × Json) → List Char
  | [] => []
  | [(k, v)] => renderString k ++ ':' :: render v
  | (k, v) :: m :: ms =>
    renderString k ++ ':' :: render v ++ ',' :: renderMembers (m :: ms)
termination_by ms => sizeOf ms
decreasing_by all_goals (simp_wf <;> omega)

end

/-- Inverse of `escapeChar` on single escape codes. -/
def unescape (c : Char) : Option Char :=
  if c = '"' then some '"'
  else if c = '\\' then some '\\'
  else if c = '/' then some '/'
  else if c = 'n' then some '\n'
  else if c = 'r' then some '\r'
  else if c = 't' then some '\t'
  else none

/-- Parse the body of a JSON string literal (after the opening quote),
returning the decoded characters and the input after the closing quote. -/
def parseStringBody : List Char → Option (List Char × List Char)
  | [] => none
  | c :: rest =>
    if c = '"' then some ([], rest)
    else if c = '\\' then
      match rest with
      | [] => none
      | e :: rest2 =>
        match unescape e with
        | some u =>
          match parseStringBody rest2 with
          | some (s, r) => some (u :: s, r)
          | none => none
        | none => none
    else
      match parseStringBody rest with
      | some (s, r) => some (c :: s, r)
      | none => none

/-- Numeric value of a decimal digit character. -/
def digitVal (c : Char) : Nat := c.toNat - '0'.toNat

/-- Greedy split of the longest decimal-digit prefix. -/
def digSpan (l : List Char) : List Char × List Char :=
  (l.takeWhile Char.isDigit, l.dropWhile Char.isDigit)

/-- Value of a most-significant-first digit-character list. -/
def digitsToNat (ds : List Char) : Nat :=
  ds.foldl (fun a c => 10 * a + digitVal c) 0

/-- Parse a JSON integer (optional minus sign, then digits). -/
def parseNumber (l : List Char) : Option (Int × List Char) :=
  match l with
  | [] => none
  | c :: rest =>
    if c = '-' then
      let p := digSpan rest
      if p.1.isEmpty then none else some (-((digitsToNat p.1 : Nat) : Int), p.2)
    else
      let p := digSpan l
      if p.1.isEmpty then none else some (((digitsToNat p.1 : Nat) : Int), p.2)

/-- One step of the JSON value parser; `pe` and `pm` are the element-list
and member-list parsers with one unit less fuel. -/
def valBody (pe : List Char → Option (List Json × List Char))
    (pm : List Char → Option (List (List Char × Json) × List Char))
    (l : List Char) : Option (Json × List Char) :=
  match l with
  | [] => none
  | c :: rest =>
    if c = 'n' then
      match rest with
      | 'u' :: 'l' :: 'l' :: r => some (.null, r)
      | _ => none
    else if c = 't' then
      match rest with
      | 'r' :: 'u' :: 'e' :: r => some (.bool true, r)
      | _ => none
    else if c = 'f' then
      match rest with
      | 'a' :: 'l' :: 's' :: 'e' :: r => some (.bool false, r)
      | _ => none
    else if c = '"' then
      match parseStringBody rest with
      | some (s, r) => some (.str s, r)
      | none => none
    else if c = '[' then
      match rest with
      | ']' :: r => some (.arr [], r)
      | _ =>
        match pe rest with
        | some (es, r) => some (.arr es, r)
        | none => none
    else if c = '\x7b' then
      match rest with
      | '\x7d' :: r => some (.obj [], r)
      | _ =>
        match pm rest with
        | some (ms, r) => some (.obj ms, r)
        | none => none
    else
      match parseNumber l with
      | some (i, r) => some (.num i, r)
      | none => none

/-- One step of the parser for a nonempty comma-separated element list
including the closing bracket; `pv` is the value parser with one unit
less fuel and `pe` the element-list parser with one unit less fuel. -/
def elemsBody (pv : List Char → Option (Json × List Char))
    (pe : List Char → Option (List Json × List Char))
    (l : List Char) : Option (List Json × List Char) :=
  match pv l with
  | none => none
  | some (j, rest) =>
    match rest with
    | ',' :: r2 =>
      match pe r2 with
      | some (js, r3) => some (j :: js, r3)
      | none => none
    | ']' :: r2 => some ([j], r2)
    | _ => none

/-- One step of the parser for a nonempty comma-separated member list
including the closing brace. -/
def membersBody (pv : List Char → Option (Json × List Char))
    (pm : List Char → Option (List (List Char × Json) × List Char))
    (l : List Char) : Option (List (List Char × Json) × List Char) :=
  match l with
  | '"' :: rest =>
    match parseStringBody rest with
    | none => none
    | some (k, r1) =>
      match r1 with
      | ':' :: r2 =>
        match pv r2 with
        | none => none
        | some (v, r3) =>
          match r3 with
          | ',' :: r4 =>
            match pm r4 with
            | some (ms, r5) => some ((k, v) :: ms, r5)
            | none => none
          | '\x7d' :: r4 => some ([(k, v)], r4)
          | _ => none
      | _ => none
  | _ => none

/-- The fuel-indexed triple of mutually recursive parsers. -/
def parsers : Nat →
    (List Char → Option (Json × List Char)) ×
    (List Char → Option (List Json × List Char)) ×
    (List Char → Option (List (List Char × Json) × List Char))
  | 0 => (fun _ => none, fun _ => none, fun _ => none)
  | fuel + 1 =>
    let p := parsers fuel
    (valBody p.2.1 p.2.2, elemsBody p.1 p.2.1, membersBody p.1 p.2.2)

/-- Fuel-indexed recursive-descent parser for a JSON value. -/
def parseVal (fuel : Nat) (l : List Char) : Option (Json × List Char) :=
  (parsers fuel).1 l

/-- Parse a nonempty comma-separated element list including the closing
bracket. -/
def parseElems (fuel : Nat) (l : List Char) :
    Option (List Json × List Char) :=
  (parsers fuel).2.1 l

/-- Parse a nonempty comma-separated member list including the closing
brace. -/
def parseMembers (fuel : Nat) (l : List Char) :
    Option (List (List Char × Json) × List Char) :=
  (parsers fuel).2.2 l

def jsonFuel (l : List Char) : Nat := 2 * l.length + 4

/-- `JSON.parse` on integral JSON: parse a complete value, requiring the
whole input to be consumed. -/
def jsonParse (l : List Char) : Option Json :=
  match parseVal (jsonFuel l) l with
  | some (j, []) => some j
  | _ => none

/-- The continuation after a rendered number must not start with a digit. -/
def delim : List Char → Prop
  | [] => True
  | c :: _ => c.isDigit = false

mutual

/-- Fuel bound sufficient to parse a rendered value. -/
def jsize : Json → Nat
  | .null => 1
  | .bool _ => 1
  | .num _ => 1
  | .str _ => 1
  | .arr es => 1 + esize es
  | .obj ms => 1 + msize ms
termination_by j => sizeOf j
decreasing_by all_goals (simp_wf <;> omega)

/-- Fuel bound sufficient to parse a rendered element list. -/
def esize : List Json → Nat
  | [] => 1
  | j :: js => 1 + jsize j + esize js
termination_by es => sizeOf es
decreasing_by all_goals (simp_wf <;> omega)

/-- Fuel bound sufficient to parse a rendered member list. -/
def msize : List (List Char × Json) → Nat
  | [] => 1
  | (_, v) :: ms => 1 + jsize v + msize ms
termination_by ms => sizeOf ms
decreasing_by all_goals (simp_wf <;> omega)

end

structure ICompressor where
  compress : List Char → List Nat
  decompress : List Nat → Except (List Char) (List Char)

/-- Whether a byte is a UTF-8 continuation byte. -/
def isCont (b : Nat) : Bool := 0x80 ≤ b && b < 0xC0

/-- Model of `new TextDecoder().decode` (non-fatal mode): total UTF-8
decoding with U+FFFD replacement on invalid sequences. -/
def utf8Decode : List Nat → List Char
  | [] => []
  | b :: rest =>
    if b < 0x80 then Char.ofNat b :: utf8Decode rest
    else if 0xC0 ≤ b && b < 0xE0 then
      match rest with
      | b2 :: r2 =>
        if isCont b2 then
          Char.ofNat ((b - 0xC0) * 64 + (b2 - 0x80)) :: utf8Decode r2
        else Char.ofNat 0xFFFD :: utf8Decode (b2 :: r2)
      | [] => [Char.ofNat 0xFFFD]
    else if 0xE0 ≤ b && b < 0xF0 then
      match rest with
      | b2 :: b3 :: r3 =>
        if isCont b2 && isCont b3 then
          Char.ofNat ((b - 0xE0) * 4096 + (b2 - 0x80) * 64 + (b3 - 0x80)) ::
            utf8Decode r3
        else Char.ofNat 0xFFFD :: utf8Decode (b2 :: b3 :: r3)
      | _ => [Char.ofNat 0xFFFD]
    else if 0xF0 ≤ b && b < 0xF8 then
      match rest with
      | b2 :: b3 :: b4 :: r4 =>
        if isCont b2 && isCont b3 && isCont b4 then
          Char.ofNat ((b - 0xF0) * 262144 + (b2 - 0x80) * 4096 +
              (b3 - 0x80) * 64 + (b4 - 0x80)) :: utf8Decode r4
        else Char.ofNat 0xFFFD :: utf8Decode (b2 :: b3 :: b4 :: r4)
      | _ => [Char.ofNat 0xFFFD]
    else Char.ofNat 0xFFFD :: utf8Decode rest
termination_by l => l.length
decreasing_by all_goals (simp_wf <;> omega)

/-- Configuration options of the client (defaults as in the source's
field initializer merged in the constructor). -/
structure Options where
  reconnect : Bool
  reconnectInterval : Nat
  reconnectAttempts : Nat
  useCompression : Bool
  compressor : Option ICompressor
  heartbeat : Bool
  heartbeatInterval : Nat

/-- The source's default options object. -/
def defaultOptions : Options :=
  { reconnect := false
    reconnectInterval := 1000
    reconnectAttempts := 5
    useCompression := false
    compressor := none
    heartbeat := false
    heartbeatInterval := 10000 }

/-- The wire message shape (`IMessage` in the source):
`{ timestamp, event, data? }`. -/
structure IMessage where
  timestamp : List Char
  event : List Char
  data : Option Json
  deriving Repr

def timestampKey : List Char := "timestamp".toList

def eventKey : List Char := "event".toList

def dataKey : List Char := "data".toList

/-- The JSON object `JSON.stringify` serializes for an `IMessage`
(insertion order `timestamp`, `event`, `data`; an `undefined` data
property is omitted). -/
def encodeIMessage (m : IMessage) : Json :=
  Json.obj ([(timestampKey, Json.str m.timestamp),
             (eventKey, Json.str m.event)] ++
    (match m.data with
     | some d => [(dataKey, d)]
     | none => []))

/-- `JSON.stringify(m)` for an envelope. -/
def serializeMessage (m : IMessage) : List Char :=
  render (encodeIMessage m)

/-- A frame as delivered to / accepted from the transport: text, a binary
blob (byte contents), or a blob whose `FileReader` materialization fails. -/
inductive Frame where
  | text (s : List Char)
  | blob (bytes : List Nat)
  | blobReadFailure
  deriving Repr

/-- The outbound encode path shared by `emit` and `flushQueue`:
`JSON.stringify`, then compress when `useCompression` and a compressor
are present. -/
def encodeMessage (o : Options) (m : IMessage) : Frame :=
  match o.useCompression, o.compressor with
  | true, some c => Frame.blob (c.compress (serializeMessage m))
  | _, _ => Frame.text (serializeMessage m)

/-- Failure cases of the inbound decode path. -/
inductive DecodeError where
  | blobRead
  | decompressFailure (e : List Char)
  | parseFailure
  deriving Repr, DecidableEq

/-- The inbound decode path of the `message` listener: materialize a blob
(possibly failing), decompress or UTF-8 decode, then `JSON.parse`. -/
def decodeFrame (o : Options) (f : Frame) : Except DecodeError Json :=
  match f with
  | Frame.blobReadFailure => Except.error DecodeError.blobRead
  | Frame.blob bytes =>
    let text : Except DecodeError (List Char) :=
      match o.useCompression, o.compressor with
      | true, some c =>
        match c.decompress bytes with
        | Except.ok s => Except.ok s
        | Except.error e => Except.error (DecodeError.decompressFailure e)
      | _, _ => Except.ok (utf8Decode bytes)
    match text with
    | Except.error e => Except.error e
    | Except.ok t =>
      match jsonParse t with
      | some j => Except.ok j
      | none => Except.error DecodeError.parseFailure
  | Frame.text s =>
    match jsonParse s with
    | some j => Except.ok j
    | none => Except.error DecodeError.parseFailure

/-- First-match field lookup in a JSON object member list. -/
def lookupMember : List (List Char × Json) → List Char → Option Json
  | [], _ => none
  | (k2, v) :: ms, k => if k2 = k then some v else lookupMember ms k

/-- JavaScript property access `j.k` on a parsed JSON value (`undefined`
is `none`). -/
def Json.getField (j : Json) (k : List Char) : Option Json :=
  match j with
  | Json.obj ms => lookupMember ms k
  | _ => none

/-! ## The connection lifecycle state machine -/

/-- `ConnectionStatus` from the source. -/
inductive ConnectionStatus where
  | connected
  | disconnected
  | reconnecting
  deriving Repr, DecidableEq

/-- Observable events dispatched through `trigger`. -/
inductive Dispatch where
  | connect
  | disconnect
  | error
  | reconnectAttempt (n : Nat)
  | reconnectFailed (n : Nat)
  | parseError (msg : List Char) (cause : DecodeError)
  | wildcard (j : Json)
  | named (event : Option Json) (j : Json)
  deriving Repr

/-- The mutable fields of `WebSocketClient` relevant to the lifecycle,
queue and topic layer.  `pendingReconnectTimer` records a scheduled
`setTimeout(() => this.connection(), …)`; `socketsOpened` counts
`new WebSocket(url)` constructions. -/
structure ClientState where
  isConnected : Bool
  status : ConnectionStatus
  shouldReconnect : Bool
  eventQueue : List IMessage
  reconnectAttempts : Nat
  subscriptions : List (List Char)
  heartbeatRecived : Bool
  pendingReconnectTimer : Bool
  socketsOpened : Nat
  deriving Repr

/-- `connection()`: constructs a new transport (closing any previous one)
and attaches the four listeners; mutates no lifecycle flags itself. -/
def connection (s : ClientState) : ClientState :=
  { s with socketsOpened := s.socketsOpened + 1 }

/-- `reconnect()` from the source. -/
def reconnect (o : Options) (s : ClientState) : ClientState × List Dispatch :=
  if s.status = ConnectionStatus.disconnected ∧ o.reconnect then
    if s.reconnectAttempts < o.reconnectAttempts then
      ({ s with reconnectAttempts := s.reconnectAttempts + 1
                status := ConnectionStatus.reconnecting
                pendingReconnectTimer := true },
        [Dispatch.reconnectAttempt (s.reconnectAttempts + 1)])
    else (s, [Dispatch.reconnectFailed s.reconnectAttempts])
  else (s, [])

/-- The `close` listener: flags down, dispatch `disconnect`, then invoke
the reconnection algorithm when configured and not suppressed. -/
def closeSignal (o : Options) (s : ClientState) :
    ClientState × List Dispatch :=
  let s1 := { s with isConnected := false
                     status := ConnectionStatus.disconnected }
  if o.reconnect && s1.shouldReconnect then
    let r := reconnect o s1
    (r.1, Dispatch.disconnect :: r.2)
  else (s1, [Dispatch.disconnect])

/-- The body of the reconnection `setTimeout`: it calls `this.connection()`
unconditionally (the source performs no status or suppression re-check). -/
def reconnectTimerFire (s : ClientState) : ClientState :=
  if s.pendingReconnectTimer then
    connection { s with pendingReconnectTimer := false }
  else s

/-- `flushQueue()` from the source: guard on `isConnected`, attempt a send
for every queued envelope in order, clear the queue unconditionally. -/
def flushQueue (o : Options) (s : ClientState) : ClientState × List Frame :=
  if s.isConnected = false then (s, [])
  else ({ s with eventQueue := [] }, s.eventQueue.map (encodeMessage o))

/-- The `open` listener: connected flags, counter reset, `connect`
dispatch, queue flush. -/
def openSignal (o : Options) (s : ClientState) :
    ClientState × List Dispatch × List Frame :=
  let s1 := { s with isConnected := true
                     status := ConnectionStatus.connected
                     reconnectAttempts := 0 }
  let r := flushQueue o s1
  (r.1, [Dispatch.connect], r.2)

/-- `disconnect()` from the source. -/
def disconnect (s : ClientState) : ClientState :=
  { s with isConnected := false
           shouldReconnect := false
           status := ConnectionStatus.disconnected }

/-- The outcome `emit` reports to its caller. -/
inductive EmitOutcome where
  | queuedResolved
  | sentResolved (f : Frame)
  deriving Repr

/-- `emit(eventName, data)`: build the envelope with a fresh timestamp
(passed here as an explicit argument); queue and resolve immediately when
not connected, otherwise encode and send. -/
def emit (o : Options) (s : ClientState) (eventName : List Char)
    (data : Option Json) (ts : List Char) : ClientState × EmitOutcome :=
  let m : IMessage := { timestamp := ts, event := eventName, data := data }
  if s.isConnected = false then
    ({ s with eventQueue := s.eventQueue ++ [m] }, EmitOutcome.queuedResolved)
  else (s, EmitOutcome.sentResolved (encodeMessage o m))

def parseFailMessage : List Char := "Failed to parse message".toList

def pongEvent : List Char := "pong".toList

/-- Whether a decoded envelope's `event` field is the string `pong`. -/
def isPongMessage (j : Json) : Bool :=
  match Json.getField j eventKey with
  | some (Json.str s) => s = pongEvent
  | _ => false

/-- The `message` listener: decode the frame; on success dispatch the
wildcard then the named event (recording `pong` for the heartbeat); on any
failure dispatch a single structured `error` and discard the frame. -/
def messageSignal (o : Options) (s : ClientState) (f : Frame) :
    ClientState × List Dispatch :=
  match decodeFrame o f with
  | Except.ok j =>
    let s2 := if o.heartbeat && isPongMessage j then
        { s with heartbeatRecived := true }
      else s
    (s2, [Dispatch.wildcard j, Dispatch.named (Json.getField j eventKey) j])
  | Except.error e => (s, [Dispatch.parseError parseFailMessage e])

/-! ## The topic layer -/

def topicKey : List Char := "topic".toList

def subscribeEvent : List Char := "subscribe".toList

def unsubscribeEvent : List Char := "unsubscribe".toList

def publishEvent : List Char := "publish".toList

/-- Result of a `sub`/`unsub`/`pub` call: the new state, the emit outcome
when an envelope was emitted, and whether the diagnostic warning fired. -/
structure TopicOpResult where
  state : ClientState
  emitted : Option EmitOutcome
  warned : Bool
  deriving Repr

/-- `sub(topic)` from the source. -/
def sub (o : Options) (s : ClientState) (topic ts : List Char) :
    TopicOpResult :=
  if topic ∈ s.subscriptions then
    { state := s, emitted := none, warned := true }
  else
    let r := emit o s subscribeEvent
      (some (Json.obj [(topicKey, Json.str topic)])) ts
    { state := { r.1 with subscriptions := r.1.subscriptions ++ [topic] }
      emitted := some r.2
      warned := false }

/-- `unsub(topic)` from the source (removal happens before the emit). -/
def unsub (o : Options) (s : ClientState) (topic ts : List Char) :
    TopicOpResult :=
  if topic ∈ s.subscriptions then
    let s0 := { s with subscriptions := s.subscriptions.erase topic }
    let r := emit o s0 unsubscribeEvent
      (some (Json.obj [(topicKey, Json.str topic)])) ts
    { state := r.1, emitted := some r.2, warned := false }
  else
    { state := s, emitted := none, warned := true }

/-- `pub(topic, data)` from the source. -/
def pub (o : Options) (s : ClientState) (topic : List Char)
    (data : Option Json) (ts : List Char) : TopicOpResult :=
  if topic ∈ s.subscriptions then
    let payload := Json.obj ([(topicKey, Json.str topic)] ++
      (match data with
       | some d => [(dataKey, d)]
       | none => []))
    let r := emit o s publishEvent (some payload) ts
    { state := r.1, emitted := some r.2, warned := false }
  else
    { state := s, emitted := none, warned := true }

/-- `getCurrentSubscriptions()` from the source. -/
def getCurrentSubscriptions (s : ClientState) : List (List Char) :=
  s.subscriptions

/-! ## Whole-client operations -/

/-- Every operation that can act on a `ClientState`: the four transport
signals, the reconnection timer callback, and the public methods that
touch state. -/
inductive ClientOp where
  | openSig
  | closeSig
  | errorSig
  | messageSig (f : Frame)
  | timerFire
  | disconnectOp
  | emitOp (eventName : List Char) (data : Option Json) (ts : List Char)
  | subOp (topic ts : List Char)
  | unsubOp (topic ts : List Char)
  | pubOp (topic : List Char) (data : Option Json) (ts : List Char)

/-- One operation applied to the client state, with its dispatches. -/
def step (o : Options) (s : ClientState) :
    ClientOp → ClientState × List Dispatch
  | ClientOp.openSig => ((openSignal o s).1, (openSignal o s).2.1)
  | ClientOp.closeSig => closeSignal o s
  | ClientOp.errorSig => (s, [Dispatch.error])
  | ClientOp.messageSig f => messageSignal o s f
  | ClientOp.timerFire => (reconnectTimerFire s, [])
  | ClientOp.disconnectOp => (disconnect s, [])
  | ClientOp.emitOp n d ts => ((emit o s n d ts).1, [])
  | ClientOp.subOp t ts => ((sub o s t ts).state, [])
  | ClientOp.unsubOp t ts => ((unsub o s t ts).state, [])
  | ClientOp.pubOp t d ts => ((pub o s t d ts).state, [])

/-- Run a sequence of operations, returning the final state. -/
def runOps (o : Options) : ClientState → List ClientOp → ClientState
  | s, [] => s
  | s, op :: ops => runOps o (step o s op).1 ops

/-- Run a sequence of operations, collecting all dispatches in order. -/
def runTrace (o : Options) :
    ClientState → List ClientOp → ClientState × List Dispatch
  | s, [] => (s, [])
  | s, op :: ops =>
    let r := step o s op
    let rr := runTrace o r.1 ops
    (rr.1, r.2 ++ rr.2)

/-! ## The event registry -/

/-- A handler closure identity: a plain handler, or the wrapper closure a
`once(eventName, handler)` call creates around base handler `id` (each
`once` call makes a fresh wrapper, identified by `wid`).  Function values
compare by reference in the source (`!==`); distinct identities model
distinct references. -/
inductive Handler where
  | plain (id : Nat)
  | onceWrap (wid : Nat) (id : Nat)
  deriving Repr, DecidableEq

/-- The body of `off` on one event name's handler array:
`this.eventListeners[eventName].filter((h) => h !== handler)`. -/
def offList (hs : List Handler) (h : Handler) : List Handler :=
  hs.filter (fun g => g ≠ h)

/-- The `eventListeners` map: event name to handler array. -/
abbrev EventListeners := List (List Char × List Handler)

/-- Property access `this.eventListeners[eventName]`. -/
def lookupListeners : EventListeners → List Char → Option (List Handler)
  | [], _ => none
  | (n, hs) :: r, name =>
    if n = name then some hs else lookupListeners r name

/-- `on(eventName, handler)`: push onto the lazily created array
(`on` itself is a reserved token in Lean, hence the name `onEvent`). -/
def onEvent (r : EventListeners) (name : List Char) (h : Handler) :
    EventListeners :=
  match lookupListeners r name with
  | none => r ++ [(name, [h])]
  | some _ => r.map (fun p => if p.1 = name then (p.1, p.2 ++ [h]) else p)

/-- `off(eventName, handler)`: early return when no array exists for the
name, otherwise replace it by the filtered array. -/
def off (r : EventListeners) (name : List Char) (h : Handler) :
    EventListeners :=
  match lookupListeners r name with
  | none => r
  | some _ => r.map (fun p => if p.1 = name then (p.1, offList p.2 h) else p)

/-- One `trigger` pass over one event name's handlers.  `forEach` iterates
the snapshot array taken at call time (a `once` wrapper's `off` builds a
new array via `filter`, leaving the iterated snapshot untouched); `cur` is
the live array.  Invoking a wrapper first calls the base handler, then
unregisters the wrapper before returning.  Returns the live array after
the pass and the log of handler invocations in order. -/
def runSnapshot : List Handler → List Handler → List Handler × List Handler
  | [], cur => (cur, [])
  | h :: hs, cur =>
    match h with
    | Handler.plain i =>
      let r := runSnapshot hs cur
      (r.1, Handler.plain i :: r.2)
    | Handler.onceWrap w i =>
      let r := runSnapshot hs (offList cur (Handler.onceWrap w i))
      (r.1, Handler.onceWrap w i :: r.2)

/-- One synchronous `trigger(eventName, …)` call on the event's array. -/
def triggerPass (cur : List Handler) : List Handler × List Handler :=
  runSnapshot cur cur

/-- `n` consecutive synchronous triggers of the same event, with the
concatenated invocation log. -/
def triggerN : Nat → List Handler → List Handler × List Handler
  | 0, cur => (cur, [])
  | n + 1, cur =>
    let r := triggerPass cur
    let rr := triggerN n r.1
    (rr.1, r.2 ++ rr.2)

/-! ## Concrete fixtures used by witness theorems -/

/-- The options of the reconnection-ceiling scenario:
`{ reconnect: true, reconnectAttempts: 3 }` over the defaults. -/
def c1Options : Options :=
  { defaultOptions with reconnect := true, reconnectAttempts := 3 }

/-- A client state right after a successful initial open. -/
def connectedState : ClientState :=
  { isConnected := true
    status := ConnectionStatus.connected
    shouldReconnect := true
    eventQueue := []
    reconnectAttempts := 0
    subscriptions := []
    heartbeatRecived := false
    pendingReconnectTimer := false
    socketsOpened := 1 }

/-- A disconnected client state with an empty queue. -/
def disconnectedState : ClientState :=
  { connectedState with
      isConnected := false
      status := ConnectionStatus.disconnected }

/-- A run of consecutive close signals, each followed by the scheduled
reconnection timer firing into an open that fails (surfacing as the next
close signal). -/
def c1Ops : List ClientOp :=
  [ClientOp.closeSig, ClientOp.timerFire, ClientOp.closeSig,
   ClientOp.timerFire, ClientOp.closeSig, ClientOp.timerFire,
   ClientOp.closeSig]

/-- Selects the reconnection-related dispatches of a trace. -/
def isReconnectDispatch : Dispatch → Bool
  | Dispatch.reconnectAttempt _ => true
  | Dispatch.reconnectFailed _ => true
  | _ => false

/-- An `emit` call's arguments (the timestamp the source draws from the
clock is an explicit input here). -/
structure EmitCall where
  eventName : List Char
  data : Option Json
  ts : List Char

/-- The envelope `emit` builds for a call. -/
def mkMessage (c : EmitCall) : IMessage :=
  { timestamp := c.ts, event := c.eventName, data := c.data }

/-- A sequence of consecutive `emit` calls. -/
def emitRun (o : Options) :
    ClientState → List EmitCall → ClientState × List EmitOutcome
  | s, [] => (s, [])
  | s, c :: cs =>
    let r := emit o s c.eventName c.data c.ts
    let rr := emitRun o r.1 cs
    (rr.1, r.2 :: rr.2)

/-- The effect a topic-layer call's inner `emit` of envelope `m` has,
as seen from starting state `s`. -/
def emitsEnvelope (o : Options) (s : ClientState) (r : TopicOpResult)
    (m : IMessage) : Prop :=
  (s.isConnected = false →
    r.state.eventQueue = s.eventQueue ++ [m] ∧
    r.emitted = some EmitOutcome.queuedResolved) ∧
  (s.isConnected = true →
    r.state.eventQueue = s.eventQueue ∧
    r.emitted = some (EmitOutcome.sentResolved (encodeMessage o m)))

/-- A compressor whose decompress inverts compress (code points as
bytes); instantiates the compression-collaborator contract in witnesses. -/
def codePointCompressor : ICompressor :=
  { compress := fun s => s.map Char.toNat
    decompress := fun bs => Except.ok (bs.map Char.ofNat) }

def topicA : List Char := "alpha".toList

def topicB : List Char := "beta".toList

def tsSample : List Char := "2024-01-01T00:00:00.000Z".toList

/-- A disconnected state already subscribed to one topic. -/
def subscribedState : ClientState :=
  { disconnectedState with subscriptions := [topicA] }

/-- The state right after a close signal under the C1/C2 options: a
reconnection timer is pending. -/
def c2PendingState : ClientState :=
  (closeSignal c1Options connectedState).1

/-- Two consecutive `emit` calls made while disconnected. -/
def sampleCalls : List EmitCall :=
  [{ eventName := "first".toList, data := some (Json.num 1), ts := tsSample },
   { eventName := "second".toList, data := none, ts := tsSample }]

/-- A concrete envelope exercising all three fields. -/
def sampleMessage : IMessage :=
  { timestamp := tsSample
    event := "hello".toList
    data := some (Json.num 42) }

/-- Options with compression enabled via the given compressor (as the
constructor produces for `useCompression: true`). -/
def compressedOptions (c : ICompressor) : Options :=
  { defaultOptions with useCompression := true, compressor := some c }

/-! ## Registry dynamics lemmas -/

theorem parseVal_succ (fuel : Nat) (l : List Char) :
    parseVal (fuel + 1) l =
      valBody (parseElems fuel) (parseMembers fuel) l := rfl

theorem parseElems_succ (fuel : Nat) (l : List Char) :
    parseElems (fuel + 1) l =
      elemsBody (parseVal fuel) (parseElems fuel) l := rfl

theorem parseMembers_succ (fuel : Nat) (l : List Char) :
    parseMembers (fuel + 1) l =
      membersBody (parseVal fuel) (parseMembers fuel) l := rfl

/-- Fuel that suffices for any well-formed input of the given length. -/
theorem parseStringBody_round (s rest : List Char) :
    parseStringBody (s.flatMap escapeChar ++ '"' :: rest) = some (s, rest) := by
  induction s with
  | nil =>
    rw [show (([] : List Char).flatMap escapeChar ++ '"' :: rest) = '"' :: rest
      by simp]
    rw [parseStringBody.eq_def]
    simp
  | cons c s ih =>
    rw [show ((c :: s).flatMap escapeChar ++ '"' :: rest) =
        escapeChar c ++ (s.flatMap escapeChar ++ '"' :: rest) by simp]
    by_cases h1 : c = '"'
    · subst h1
      rw [show escapeChar '"' = ['\\', '"'] from rfl]
      rw [List.cons_append, List.cons_append, List.nil_append]
      rw [parseStringBody.eq_def]
      simp [unescape, ih]
    · by_cases h2 : c = '\\'
      · subst h2
        rw [show escapeChar '\\' = ['\\', '\\'] from rfl]
        rw [List.cons_append, List.cons_append, List.nil_append]
        rw [parseStringBody.eq_def]
        simp [unescape, ih]
      · by_cases h3 : c = '\n'
        · subst h3
          rw [show escapeChar '\n' = ['\\', 'n'] from rfl]
          rw [List.cons_append, List.cons_append, List.nil_append]
          rw [parseStringBody.eq_def]
          simp [unescape, ih]
        · by_cases h4 : c = '\r'
          · subst h4
            rw [show escapeChar '\r' = ['\\', 'r'] from rfl]
            rw [List.cons_append, List.cons_append, List.nil_append]
            rw [parseStringBody.eq_def]
            simp [unescape, ih]
          · by_cases h5 : c = '\t'
            · subst h5
              rw [show escapeChar '\t' = ['\\', 't'] from rfl]
              rw [List.cons_append, List.cons_append, List.nil_append]
              rw [parseStringBody.eq_def]
              simp [unescape, ih]
            · rw [show escapeChar c = [c] by
                simp [escapeChar, h1, h2, h3, h4, h5]]
              rw [List.cons_append, List.nil_append]
              rw [parseStringBody.eq_def]
              simp [h1, h2, ih]

theorem digitChar_isDigit : ∀ d, d < 10 → (Nat.digitChar d).isDigit = true := by
  decide

theorem digitVal_digitChar : ∀ d, d < 10 → digitVal (Nat.digitChar d) = d := by
  decide

theorem renderNatDigits_isDigit (n : Nat) :
    ∀ c ∈ renderNatDigits n, c.isDigit = true := by
  intro c hc
  by_cases h : n = 0
  · subst h; simp [renderNatDigits] at hc; subst hc; decide
  · simp [renderNatDigits, h] at hc
    obtain ⟨d, hd, rfl⟩ := hc
    exact digitChar_isDigit d (Nat.digits_lt_base (by norm_num) hd)

theorem renderNatDigits_ne_nil (n : Nat) : renderNatDigits n ≠ [] := by
  by_cases h : n = 0
  · subst h; simp [renderNatDigits]
  · simp [renderNatDigits, h, Nat.digits_ne_nil_iff_ne_zero]

theorem digSpan_eq (ds rest : List Char) (h1 : ∀ c ∈ ds, c.isDigit = true)
    (h2 : delim rest) : digSpan (ds ++ rest) = (ds, rest) := by
  induction ds with
  | nil =>
    cases rest with
    | nil => simp [digSpan]
    | cons c t => simp only [delim] at h2; simp [digSpan, h2]
  | cons c ds ih =>
    have hc : c.isDigit = true := h1 c (by simp)
    have ih2 := ih (fun x hx => h1 x (by simp [hx]))
    simp only [digSpan, List.cons_append, List.takeWhile_cons, List.dropWhile_cons,
      hc] at ih2 ⊢
    simp only [if_true, Prod.mk.injEq] at ih2 ⊢
    exact ⟨by simp [ih2.1], ih2.2⟩

theorem digitsToNat_renderNatDigits (n : Nat) :
    digitsToNat (renderNatDigits n) = n := by
  by_cases h : n = 0
  · subst h; decide
  · have hfold : ∀ ds : List Nat, (∀ d ∈ ds, d < 10) →
        List.foldr (fun c a => 10 * a + digitVal c) 0 (ds.map Nat.digitChar) =
          Nat.ofDigits 10 ds := by
      intro ds hds
      induction ds with
      | nil => simp [Nat.ofDigits]
      | cons d ds ih =>
        have hd : d < 10 := hds d (by simp)
        have := ih (fun x hx => hds x (by simp [hx]))
        simp only [List.map_cons, List.foldr_cons, this, Nat.ofDigits_cons,
          digitVal_digitChar d hd]
        ring
    have hlt : ∀ d ∈ Nat.digits 10 n, d < 10 :=
      fun d hd => Nat.digits_lt_base (by norm_num) hd
    simp only [digitsToNat, renderNatDigits, h, if_false, ite_false]
    rw [List.map_reverse, List.foldl_reverse]
    have := hfold (Nat.digits 10 n) hlt
    simpa [Nat.ofDigits_digits] using this

theorem jsize_pos (j : Json) : 1 ≤ jsize j := by
  cases j <;> simp [jsize]

theorem esize_pos (es : List Json) : 1 ≤ esize es := by
  cases es with
  | nil => simp [esize]
  | cons j js => simp only [esize]; omega

theorem msize_pos (ms : List (List Char × Json)) : 1 ≤ msize ms := by
  cases ms with
  | nil => simp [msize]
  | cons m ms =>
    obtain ⟨k, v⟩ := m
    simp only [msize]; omega

theorem renderInt_head (i : Int) :
    ∃ c cs, renderInt i = c :: cs ∧ (c = '-' ∨ c.isDigit = true) := by
  obtain ⟨c, cs, hcons⟩ :=
    List.exists_cons_of_ne_nil (renderNatDigits_ne_nil i.natAbs)
  have hdig : c.isDigit = true :=
    renderNatDigits_isDigit i.natAbs c (by rw [hcons]; simp)
  by_cases hneg : i < 0
  · exact ⟨'-', renderNatDigits i.natAbs, by simp [renderInt, hneg], Or.inl rfl⟩
  · exact ⟨c, cs, by simp [renderInt, hneg, hcons], Or.inr hdig⟩

theorem isDigit_ne_of (c d : Char) (h : c.isDigit = true)
    (hd : d.isDigit = false) : ¬(c = d) := by
  intro he
  rw [he, hd] at h
  exact absurd h (by simp)

theorem renderElems_cons_decomp (x : Json) (xs : List Json) :
    ∃ t, renderElems (x :: xs) = render x ++ t := by
  cases xs with
  | nil => exact ⟨[], by simp [renderElems]⟩
  | cons y ys => exact ⟨',' :: renderElems (y :: ys), by simp [renderElems]⟩

theorem renderMembers_head (k : List Char) (v : Json)
    (ms : List (List Char × Json)) :
    ∃ t, renderMembers ((k, v) :: ms) = '"' :: t := by
  cases ms with
  | nil =>
    exact ⟨k.flatMap escapeChar ++ ['"'] ++ ':' :: render v,
      by simp [renderMembers, renderString]⟩
  | cons m2 ms2 =>
    exact ⟨k.flatMap escapeChar ++ ['"'] ++ ':' :: render v ++
        ',' :: renderMembers (m2 :: ms2),
      by simp [renderMembers, renderString]⟩

theorem render_head (j : Json) : ∃ c cs, render j = c :: cs ∧
    (c = 'n' ∨ c = 't' ∨ c = 'f' ∨ c = '"' ∨ c = '[' ∨ c = '\x7b' ∨
     c = '-' ∨ c.isDigit = true) := by
  cases j with
  | null => exact ⟨'n', ['u', 'l', 'l'], by simp [render, nullChars], by simp⟩
  | bool b =>
    cases b with
    | false => exact ⟨'f', ['a', 'l', 's', 'e'], by simp [render, falseChars], by simp⟩
    | true => exact ⟨'t', ['r', 'u', 'e'], by simp [render, trueChars], by simp⟩
  | num i =>
    obtain ⟨c, cs, hcs, hh⟩ := renderInt_head i
    exact ⟨c, cs, by simp [render, hcs], by tauto⟩
  | str s =>
    exact ⟨'"', s.flatMap escapeChar ++ ['"'],
      by simp [render, renderString], by simp⟩
  | arr es => exact ⟨'[', renderElems es ++ [']'], by simp [render], by simp⟩
  | obj ms =>
    exact ⟨'\x7b', renderMembers ms ++ ['\x7d'], by simp [render], by simp⟩

theorem delim_cons (c : Char) (t : List Char) (h : c.isDigit = false) :
    delim (c :: t) := h

theorem delim_nil : delim [] := trivial

theorem parseNumber_round (i : Int) (rest : List Char) (h : delim rest) :
    parseNumber (renderInt i ++ rest) = some (i, rest) := by
  obtain ⟨c, cs, hcons⟩ :=
    List.exists_cons_of_ne_nil (renderNatDigits_ne_nil i.natAbs)
  have hsp := digSpan_eq (renderNatDigits i.natAbs) rest
    (renderNatDigits_isDigit _) h
  have hval := digitsToNat_renderNatDigits i.natAbs
  rw [hcons] at hsp hval
  have hdig : c.isDigit = true := by
    have := renderNatDigits_isDigit i.natAbs c (by rw [hcons]; simp)
    exact this
  have hsp2 : digSpan (c :: (cs ++ rest)) = (c :: cs, rest) := by
    simpa using hsp
  by_cases hneg : i < 0
  · simp only [renderInt, hneg, if_true, hcons, List.cons_append, parseNumber]
    rw [hsp2]
    simp only [List.isEmpty_cons, Bool.false_eq_true, if_false, hval,
      Option.some.injEq, Prod.mk.injEq, and_true]
    omega
  · have hcd : ¬(c = '-') := by
      intro hc; rw [hc] at hdig; simp at hdig
    rw [show renderInt i = renderNatDigits i.natAbs by simp [renderInt, hneg]]
    rw [hcons, List.cons_append]
    simp only [parseNumber]
    rw [if_neg hcd, hsp2]
    simp only [List.isEmpty_cons, Bool.false_eq_true, if_false, hval,
      Option.some.injEq, Prod.mk.injEq, and_true]
    omega

theorem valBody_bracket (pe : List Char → Option (List Json × List Char))
    (pm : List Char → Option (List (List Char × Json) × List Char))
    (c : Char) (t2 : List Char) (hne : ¬(c = ']')) :
    valBody pe pm ('[' :: c :: t2) =
      (match pe (c :: t2) with
       | some (es, r) => some (Json.arr es, r)
       | none => none) := by
  simp only [valBody]
  rw [if_neg (by decide : ¬('[' : Char) = 'n')]
  rw [if_neg (by decide : ¬('[' : Char) = 't')]
  rw [if_neg (by decide : ¬('[' : Char) = 'f')]
  rw [if_neg (by decide : ¬('[' : Char) = '"')]
  simp only [if_true]
  split
  · next r heq => exact absurd (List.cons.inj heq).1 hne
  · rfl

theorem valBody_brace (pe : List Char → Option (List Json × List Char))
    (pm : List Char → Option (List (List Char × Json) × List Char))
    (c : Char) (t2 : List Char) (hne : ¬(c = '\x7d')) :
    valBody pe pm ('\x7b' :: c :: t2) =
      (match pm (c :: t2) with
       | some (ms, r) => some (Json.obj ms, r)
       | none => none) := by
  simp only [valBody]
  rw [if_neg (by decide : ¬('\x7b' : Char) = 'n')]
  rw [if_neg (by decide : ¬('\x7b' : Char) = 't')]
  rw [if_neg (by decide : ¬('\x7b' : Char) = 'f')]
  rw [if_neg (by decide : ¬('\x7b' : Char) = '"')]
  rw [if_neg (by decide : ¬('\x7b' : Char) = '[')]
  simp only [if_true]
  split
  · next r heq => exact absurd (List.cons.inj heq).1 hne
  · rfl

theorem parse_render_fuel : ∀ fuel : Nat,
    (∀ j rest, jsize j ≤ fuel → delim rest →
      parseVal fuel (render j ++ rest) = some (j, rest)) ∧
    (∀ es rest, es ≠ [] → esize es ≤ fuel →
      parseElems fuel (renderElems es ++ ']' :: rest) = some (es, rest)) ∧
    (∀ ms rest, ms ≠ [] → msize ms ≤ fuel →
      parseMembers fuel (renderMembers ms ++ '\x7d' :: rest) =
        some (ms, rest)) := by
  intro fuel
  induction fuel with
  | zero =>
    refine ⟨fun j _ hsz _ => ?_, fun es _ hne hsz => ?_,
      fun ms _ hne hsz => ?_⟩
    · exact absurd hsz (by have := jsize_pos j; omega)
    · exact absurd hsz (by have := esize_pos es; omega)
    · exact absurd hsz (by have := msize_pos ms; omega)
  | succ fuel ih =>
    obtain ⟨ihL, ihE, ihM⟩ := ih
    refine ⟨?_, ?_, ?_⟩
    · intro j rest hsz hdelim
      cases j with
      | null =>
        rw [show render Json.null ++ rest = 'n' :: 'u' :: 'l' :: 'l' :: rest
          by simp [render, nullChars]]
        rw [parseVal_succ]
        simp [valBody]
      | bool b =>
        cases b with
        | true =>
          rw [show render (Json.bool true) ++ rest =
              't' :: 'r' :: 'u' :: 'e' :: rest by simp [render, trueChars]]
          rw [parseVal_succ]
          simp [valBody]
        | false =>
          rw [show render (Json.bool false) ++ rest =
              'f' :: 'a' :: 'l' :: 's' :: 'e' :: rest by simp [render, falseChars]]
          rw [parseVal_succ]
          simp [valBody]
      | num i =>
        obtain ⟨c, cs, hcs, hhead⟩ := renderInt_head i
        have hd : ∀ d : Char, d.isDigit = false → ¬(d = '-') → ¬(c = d) := by
          intro d hdd hdm
          rcases hhead with h | h
          · rw [h]; intro he; exact hdm he.symm
          · exact isDigit_ne_of c d h hdd
        rw [show render (Json.num i) ++ rest = c :: (cs ++ rest)
          by simp [render, hcs]]
        rw [parseVal_succ]
        simp only [valBody]
        rw [if_neg (hd 'n' (by decide) (by decide)),
          if_neg (hd 't' (by decide) (by decide)),
          if_neg (hd 'f' (by decide) (by decide)),
          if_neg (hd '"' (by decide) (by decide)),
          if_neg (hd '[' (by decide) (by decide)),
          if_neg (hd '\x7b' (by decide) (by decide))]
        rw [show c :: (cs ++ rest) = renderInt i ++ rest by
          rw [hcs]; simp]
        rw [parseNumber_round i rest hdelim]
      | str s =>
        rw [show render (Json.str s) ++ rest =
            '"' :: (s.flatMap escapeChar ++ '"' :: rest)
          by simp [render, renderString]]
        rw [parseVal_succ]
        simp [valBody, parseStringBody_round]
      | arr es =>
        cases es with
        | nil =>
          rw [show render (Json.arr []) ++ rest = '[' :: ']' :: rest
            by simp [render, renderElems]]
          rw [parseVal_succ]
          simp [valBody]
        | cons x xs =>
          have hesz : esize (x :: xs) ≤ fuel := by
            simp only [jsize] at hsz; omega
          have hE := ihE (x :: xs) rest (by simp) hesz
          obtain ⟨t, ht⟩ := renderElems_cons_decomp x xs
          obtain ⟨c, cs, hcs, hhead⟩ := render_head x
          have hcne : ¬(c = ']') := by
            rcases hhead with h | h | h | h | h | h | h | h
            all_goals first
            | (rw [h]; decide)
            | (exact isDigit_ne_of c ']' h (by decide))
          rw [show render (Json.arr (x :: xs)) ++ rest =
              '[' :: (renderElems (x :: xs) ++ ']' :: rest)
            by simp [render]]
          rw [parseVal_succ]
          rw [show renderElems (x :: xs) ++ ']' :: rest =
              c :: (cs ++ (t ++ ']' :: rest)) by rw [ht, hcs]; simp]
          rw [valBody_bracket _ _ c _ hcne]
          rw [show c :: (cs ++ (t ++ ']' :: rest)) =
              renderElems (x :: xs) ++ ']' :: rest by rw [ht, hcs]; simp]
          rw [hE]
      | obj ms =>
        cases ms with
        | nil =>
          rw [show render (Json.obj []) ++ rest = '\x7b' :: '\x7d' :: rest
            by simp [render, renderMembers]]
          rw [parseVal_succ]
          simp [valBody]
        | cons m ms2 =>
          obtain ⟨k, v⟩ := m
          have hmsz : msize ((k, v) :: ms2) ≤ fuel := by
            simp only [jsize] at hsz; omega
          have hM := ihM ((k, v) :: ms2) rest (by simp) hmsz
          obtain ⟨t, ht⟩ := renderMembers_head k v ms2
          rw [show render (Json.obj ((k, v) :: ms2)) ++ rest =
              '\x7b' :: (renderMembers ((k, v) :: ms2) ++ '\x7d' :: rest)
            by simp [render]]
          rw [parseVal_succ]
          rw [show renderMembers ((k, v) :: ms2) ++ '\x7d' :: rest =
              '"' :: (t ++ '\x7d' :: rest) by rw [ht]; simp]
          rw [valBody_brace _ _ '"' _ (by decide)]
          rw [show ('"' : Char) :: (t ++ '\x7d' :: rest) =
              renderMembers ((k, v) :: ms2) ++ '\x7d' :: rest
            by rw [ht]; simp]
          rw [hM]
    · intro es rest hne hsz
      cases es with
      | nil => exact absurd rfl hne
      | cons x xs =>
        cases xs with
        | nil =>
          have hxsz : jsize x ≤ fuel := by
            simp only [esize] at hsz
            have := esize_pos ([] : List Json)
            omega
          have hL := ihL x (']' :: rest) hxsz (delim_cons _ _ (by decide))
          rw [show renderElems [x] ++ ']' :: rest = render x ++ ']' :: rest
            by simp [renderElems]]
          rw [parseElems_succ]
          simp [elemsBody, hL]
        | cons y ys =>
          have hxsz : jsize x ≤ fuel := by
            simp only [esize] at hsz
            omega
          have hysz : esize (y :: ys) ≤ fuel := by
            simp only [esize] at hsz ⊢
            omega
          have hL := ihL x (',' :: (renderElems (y :: ys) ++ ']' :: rest))
            hxsz (delim_cons _ _ (by decide))
          have hE := ihE (y :: ys) rest (by simp) hysz
          rw [show renderElems (x :: y :: ys) ++ ']' :: rest =
              render x ++ ',' :: (renderElems (y :: ys) ++ ']' :: rest)
            by simp [renderElems]]
          rw [parseElems_succ]
          simp [elemsBody, hL, hE]
    · intro ms rest hne hsz
      cases ms with
      | nil => exact absurd rfl hne
      | cons m ms2 =>
        obtain ⟨k, v⟩ := m
        cases ms2 with
        | nil =>
          have hvsz : jsize v ≤ fuel := by
            simp only [msize] at hsz
            have := msize_pos ([] : List (List Char × Json))
            omega
          have hL := ihL v ('\x7d' :: rest) hvsz (delim_cons _ _ (by decide))
          rw [show renderMembers [(k, v)] ++ '\x7d' :: rest =
              '"' :: (k.flatMap escapeChar ++
                '"' :: (':' :: (render v ++ '\x7d' :: rest)))
            by simp [renderMembers, renderString]]
          rw [parseMembers_succ]
          simp [membersBody, parseStringBody_round, hL]
        | cons m2 ms3 =>
          have hvsz : jsize v ≤ fuel := by
            simp only [msize] at hsz
            omega
          have hmsz : msize (m2 :: ms3) ≤ fuel := by
            simp only [msize] at hsz ⊢
            omega
          have hL := ihL v
            (',' :: (renderMembers (m2 :: ms3) ++ '\x7d' :: rest))
            hvsz (delim_cons _ _ (by decide))
          have hM := ihM (m2 :: ms3) rest (by simp) hmsz
          rw [show renderMembers ((k, v) :: m2 :: ms3) ++ '\x7d' :: rest =
              '"' :: (k.flatMap escapeChar ++
                '"' :: (':' :: (render v ++
                  ',' :: (renderMembers (m2 :: ms3) ++ '\x7d' :: rest))))
            by simp [renderMembers, renderString]]
          rw [parseMembers_succ]
          simp [membersBody, parseStringBody_round, hL, hM]

theorem jsize_le_two_len : ∀ n : Nat,
    (∀ j, jsize j ≤ n → jsize j ≤ 2 * (render j).length) ∧
    (∀ es, es ≠ [] → esize es ≤ n →
      esize es ≤ 2 * (renderElems es).length + 2) ∧
    (∀ ms, ms ≠ [] → msize ms ≤ n →
      msize ms ≤ 2 * (renderMembers ms).length + 2) := by
  intro n
  induction n with
  | zero =>
    refine ⟨fun j hn => ?_, fun es hne hn => ?_, fun ms hne hn => ?_⟩
    · exact absurd hn (by have := jsize_pos j; omega)
    · exact absurd hn (by have := esize_pos es; omega)
    · exact absurd hn (by have := msize_pos ms; omega)
  | succ n ih =>
    obtain ⟨ihL, ihE, ihM⟩ := ih
    refine ⟨?_, ?_, ?_⟩
    · intro j hn
      cases j with
      | null => simp [jsize, render, nullChars]
      | bool b => cases b <;> simp [jsize, render, trueChars, falseChars]
      | num i =>
        obtain ⟨c, cs, hcs, _⟩ := renderInt_head i
        simp only [jsize, render, hcs, List.length_cons]
        omega
      | str s =>
        simp only [jsize, render, renderString, List.length_cons]
        omega
      | arr es =>
        cases es with
        | nil => simp [jsize, esize, render, renderElems]
        | cons x xs =>
          have h1 : esize (x :: xs) ≤ n := by
            simp only [jsize] at hn; omega
          have h2 := ihE (x :: xs) (by simp) h1
          simp only [jsize, render, List.length_cons, List.length_append,
            List.length_singleton]
          omega
      | obj ms =>
        cases ms with
        | nil => simp [jsize, msize, render, renderMembers]
        | cons m ms2 =>
          have h1 : msize (m :: ms2) ≤ n := by
            simp only [jsize] at hn; omega
          have h2 := ihM (m :: ms2) (by simp) h1
          simp only [jsize, render, List.length_cons, List.length_append,
            List.length_singleton]
          omega
    · intro es hne hn
      cases es with
      | nil => exact absurd rfl hne
      | cons x xs =>
        cases xs with
        | nil =>
          have h1 : jsize x ≤ n := by
            simp only [esize] at hn; omega
          have h2 := ihL x h1
          simp only [esize, renderElems]
          omega
        | cons y ys =>
          have h1 : jsize x ≤ n := by
            simp only [esize] at hn; omega
          have h2 : esize (y :: ys) ≤ n := by
            simp only [esize] at hn ⊢; omega
          have hx := ihL x h1
          have hyy := ihE (y :: ys) (by simp) h2
          simp only [esize, renderElems, List.length_append,
            List.length_cons] at hx hyy ⊢
          omega
    · intro ms hne hn
      cases ms with
      | nil => exact absurd rfl hne
      | cons m ms2 =>
        obtain ⟨k, v⟩ := m
        cases ms2 with
        | nil =>
          have h1 : jsize v ≤ n := by
            simp only [msize] at hn; omega
          have h2 := ihL v h1
          simp only [msize, renderMembers, List.length_append,
            List.length_cons]
          omega
        | cons m2 ms3 =>
          have h1 : jsize v ≤ n := by
            simp only [msize] at hn; omega
          have h2 : msize (m2 :: ms3) ≤ n := by
            simp only [msize] at hn ⊢; omega
          have hv := ihL v h1
          have hmm := ihM (m2 :: ms3) (by simp) h2
          simp only [msize, renderMembers, List.length_append,
            List.length_cons] at hv hmm ⊢
          omega

/-- The JSON round trip: parsing a rendered value recovers the value. -/
theorem jsonParse_render (j : Json) : jsonParse (render j) = some j := by
  have hsz : jsize j ≤ jsonFuel (render j) := by
    have := (jsize_le_two_len (jsize j)).1 j le_rfl
    simp only [jsonFuel]
    omega
  have h := (parse_render_fuel (jsonFuel (render j))).1 j [] hsz delim_nil
  rw [List.append_nil] at h
  simp [jsonParse, h]

/-! ## The message codec and collaborators -/

/-- The compression collaborator contract (`ICompressor` in the source):
`compress` maps text to bytes, `decompress` maps bytes back to text and can
fail (pako `inflate` throws on invalid input, modelled as `Except`). -/
theorem runSnapshot_log (snap : List Handler) :
    ∀ cur, (runSnapshot snap cur).2 = snap := by
  induction snap with
  | nil => intro cur; simp [runSnapshot]
  | cons h hs ih =>
    intro cur
    cases h with
    | plain i => simp [runSnapshot, ih]
    | onceWrap w i => simp [runSnapshot, ih]

theorem count_offList_self (l : List Handler) (h : Handler) :
    (offList l h).count h = 0 := by
  rw [List.count_eq_zero]
  simp [offList, List.mem_filter]

theorem count_offList_le (l : List Handler) (h w : Handler) :
    (offList l h).count w ≤ l.count w :=
  List.Sublist.count_le (List.filter_sublist l) w

theorem runSnapshot_count_le (snap : List Handler) (w : Handler) :
    ∀ cur, ((runSnapshot snap cur).1).count w ≤ cur.count w := by
  induction snap with
  | nil => intro cur; simp [runSnapshot]
  | cons h hs ih =>
    intro cur
    cases h with
    | plain i => simpa [runSnapshot] using ih cur
    | onceWrap a b =>
      have h1 := ih (offList cur (Handler.onceWrap a b))
      have h2 := count_offList_le cur (Handler.onceWrap a b) w
      simp only [runSnapshot]
      omega

theorem runSnapshot_mem_zero (snap : List Handler) (wid hid : Nat) :
    ∀ cur, Handler.onceWrap wid hid ∈ snap →
      ((runSnapshot snap cur).1).count (Handler.onceWrap wid hid) = 0 := by
  induction snap with
  | nil => intro cur hmem; simp at hmem
  | cons h hs ih =>
    intro cur hmem
    by_cases he : h = Handler.onceWrap wid hid
    · subst he
      simp only [runSnapshot]
      have h0 := count_offList_self cur (Handler.onceWrap wid hid)
      have h1 := runSnapshot_count_le hs (Handler.onceWrap wid hid)
        (offList cur (Handler.onceWrap wid hid))
      omega
    · have hmem2 : Handler.onceWrap wid hid ∈ hs := by
        rcases List.mem_cons.mp hmem with h1 | h1
        · exact absurd h1.symm he
        · exact h1
      cases h with
      | plain i => simpa [runSnapshot] using ih cur hmem2
      | onceWrap a b =>
        simpa [runSnapshot] using
          ih (offList cur (Handler.onceWrap a b)) hmem2

theorem triggerN_state_le (n : Nat) (w : Handler) :
    ∀ cur, ((triggerN n cur).1).count w ≤ cur.count w := by
  induction n with
  | zero => intro cur; simp [triggerN]
  | succ n ih =>
    intro cur
    have h1 := ih (triggerPass cur).1
    have h2 := runSnapshot_count_le cur w cur
    simp only [triggerN, triggerPass] at h1 ⊢
    omega

theorem triggerN_count (n wid hid : Nat) :
    ∀ cur : List Handler,
      ((triggerN n cur).2).count (Handler.onceWrap wid hid) +
        ((triggerN n cur).1).count (Handler.onceWrap wid hid) ≤
        cur.count (Handler.onceWrap wid hid) := by
  induction n with
  | zero => intro cur; simp [triggerN]
  | succ n ih =>
    intro cur
    have hlog : (triggerPass cur).2 = cur := runSnapshot_log cur cur
    have hih := ih (triggerPass cur).1
    by_cases hz : cur.count (Handler.onceWrap wid hid) = 0
    · have h1 : ((triggerPass cur).1).count (Handler.onceWrap wid hid) = 0 := by
        have := runSnapshot_count_le cur (Handler.onceWrap wid hid) cur
        simp only [triggerPass]
        omega
      rw [h1] at hih
      simp only [triggerN, List.count_append, hlog]
      omega
    · have hmem : Handler.onceWrap wid hid ∈ cur :=
        List.count_pos_iff.mp (by omega)
      have h1 : ((triggerPass cur).1).count (Handler.onceWrap wid hid) = 0 :=
        runSnapshot_mem_zero cur wid hid cur hmem
      rw [h1] at hih
      simp only [triggerN, List.count_append, hlog]
      omega

/-- Claim C6: for every event name and handler, a handler registered via
`once(eventName, handler)` is invoked at most one time per registration,
even when the same event is triggered synchronously multiple times in a
row; on its first invocation it is called and then unregistered before
the wrapper returns (after any trigger pass the wrapper is no longer
registered). -/
theorem once_handler_at_most_once (L : List Handler) (n wid hid : Nat)
    (hreg : L.count (Handler.onceWrap wid hid) ≤ 1) :
    ((triggerN n L).2).count (Handler.onceWrap wid hid) ≤ 1 ∧
    (1 ≤ n →
      ((triggerN n L).1).count (Handler.onceWrap wid hid) = 0) := by
  have h := triggerN_count n wid hid L
  refine ⟨by omega, ?_⟩
  intro hn
  cases n with
  | zero => omega
  | succ k =>
    have hstate := triggerN_state_le k (Handler.onceWrap wid hid)
      (triggerPass L).1
    by_cases hz : L.count (Handler.onceWrap wid hid) = 0
    · have h1 : ((triggerPass L).1).count (Handler.onceWrap wid hid) = 0 := by
        have := runSnapshot_count_le L (Handler.onceWrap wid hid) L
        simp only [triggerPass]
        omega
      simp only [triggerN]
      omega
    · have hmem : Handler.onceWrap wid hid ∈ L :=
        List.count_pos_iff.mp (by omega)
      have h1 : ((triggerPass L).1).count (Handler.onceWrap wid hid) = 0 := by
        have := runSnapshot_mem_zero L wid hid L hmem
        simp only [triggerPass]
        omega
      simp only [triggerN]
      omega

/-- Witness for C6: a concrete registry holding one plain handler and one
`once` wrapper, triggered three times in a row. -/
theorem once_handler_at_most_once_witness :
    ([Handler.plain 5, Handler.onceWrap 0 7].count
        (Handler.onceWrap 0 7) ≤ 1) ∧
    (((triggerN 3 [Handler.plain 5, Handler.onceWrap 0 7]).2).count
        (Handler.onceWrap 0 7) ≤ 1 ∧
      (1 ≤ 3 →
        ((triggerN 3 [Handler.plain 5, Handler.onceWrap 0 7]).1).count
          (Handler.onceWrap 0 7) = 0)) :=
  ⟨by decide,
    once_handler_at_most_once [Handler.plain 5, Handler.onceWrap 0 7]
      3 0 7 (by decide)⟩

/-- Counterexample for C7: the source's `off` uses
`filter((h) => h !== handler)`, which removes every occurrence of the
handler reference; with the same handler registered twice it removes
both, where the claim predicts the later duplicate remains. -/
theorem off_removes_first_only_counterexample :
    offList [Handler.plain 0, Handler.plain 0] (Handler.plain 0) = [] ∧
    ¬(offList [Handler.plain 0, Handler.plain 0] (Handler.plain 0) =
      [Handler.plain 0]) := by
  decide

/-- Claim C7 (amended): `off(eventName, handler)` removes every
occurrence of the handler reference from that event's list, preserving
the order of the remaining handlers, and is a no-op when the event has no
handler list or the handler is not present. -/
theorem off_spec (r : EventListeners) (name : List Char)
    (hs : List Handler) (h : Handler) :
    (lookupListeners r name = none → off r name h = r) ∧
    (¬(h ∈ hs) → offList hs h = hs) ∧
    ¬(h ∈ offList hs h) ∧
    (∀ g, ¬(g = h) → (offList hs h).count g = hs.count g) ∧
    (offList hs h).Sublist hs := by
  refine ⟨?_, ?_, ?_, ?_, ?_⟩
  · intro hnone
    simp [off, hnone]
  · intro hnm
    rw [offList, List.filter_eq_self]
    intro a ha
    have hne : ¬(a = h) := fun he => hnm (he ▸ ha)
    simp [hne]
  · simp [offList, List.mem_filter]
  · intro g hg
    rw [offList, List.count_filter]
    simp [hg]
  · exact List.filter_sublist hs

/-- Witness for C7 (amended) at concrete registries and handler lists. -/
theorem off_spec_witness :
    off [] subscribeEvent (Handler.plain 0) = [] ∧
    offList [Handler.plain 1] (Handler.plain 0) = [Handler.plain 1] ∧
    ¬(Handler.plain 0 ∈
      offList [Handler.plain 0, Handler.plain 1] (Handler.plain 0)) ∧
    (offList [Handler.plain 0, Handler.plain 1] (Handler.plain 0)).count
        (Handler.plain 1) =
      [Handler.plain 0, Handler.plain 1].count (Handler.plain 1) :=
  ⟨(off_spec [] subscribeEvent [] (Handler.plain 0)).1 rfl,
    (off_spec [] subscribeEvent [Handler.plain 1] (Handler.plain 0)).2.1
      (by decide),
    (off_spec [] subscribeEvent [Handler.plain 0, Handler.plain 1]
      (Handler.plain 0)).2.2.1,
    (off_spec [] subscribeEvent [Handler.plain 0, Handler.plain 1]
      (Handler.plain 0)).2.2.2.1 (Handler.plain 1) (by decide)⟩

/-- Claim C8: `sub` on an already-subscribed topic is a warning-only
no-op; otherwise it emits a `subscribe` envelope with payload `{ topic }`
and appends the topic.  `unsub` on an absent topic is a warning-only
no-op; otherwise it removes the topic and emits `unsubscribe` with
`{ topic }`.  `pub` on a topic not locally subscribed is a warning-only
no-op; otherwise it emits `publish` with `{ topic, data }` and leaves the
set unchanged.  All three are total functions: local misuse never raises
an exception. -/
theorem topic_layer_guards (o : Options) (s : ClientState)
    (topic ts : List Char) (d : Option Json) :
    (topic ∈ s.subscriptions →
      sub o s topic ts = { state := s, emitted := none, warned := true }) ∧
    (¬(topic ∈ s.subscriptions) →
      (sub o s topic ts).warned = false ∧
      (sub o s topic ts).state.subscriptions = s.subscriptions ++ [topic] ∧
      emitsEnvelope o s (sub o s topic ts)
        { timestamp := ts, event := subscribeEvent
          data := some (Json.obj [(topicKey, Json.str topic)]) }) ∧
    (¬(topic ∈ s.subscriptions) →
      unsub o s topic ts =
        { state := s, emitted := none, warned := true }) ∧
    (topic ∈ s.subscriptions →
      (unsub o s topic ts).warned = false ∧
      (unsub o s topic ts).state.subscriptions =
        s.subscriptions.erase topic ∧
      emitsEnvelope o s (unsub o s topic ts)
        { timestamp := ts, event := unsubscribeEvent
          data := some (Json.obj [(topicKey, Json.str topic)]) }) ∧
    (¬(topic ∈ s.subscriptions) →
      pub o s topic d ts =
        { state := s, emitted := none, warned := true }) ∧
    (topic ∈ s.subscriptions →
      (pub o s topic d ts).warned = false ∧
      (pub o s topic d ts).state.subscriptions = s.subscriptions ∧
      emitsEnvelope o s (pub o s topic d ts)
        { timestamp := ts, event := publishEvent
          data := some (Json.obj ([(topicKey, Json.str topic)] ++
            (match d with
             | some dd => [(dataKey, dd)]
             | none => []))) }) := by
  refine ⟨fun hm => by simp [sub, hm], ?_, fun hm => by simp [unsub, hm],
    ?_, fun hm => by simp [pub, hm], ?_⟩
  · intro hm
    by_cases hc : s.isConnected = false
    · simp [sub, hm, emit, hc, emitsEnvelope]
    · have hc2 : s.isConnected = true := by
        revert hc; cases s.isConnected <;> simp
      simp [sub, hm, emit, hc2, emitsEnvelope]
  · intro hm
    by_cases hc : s.isConnected = false
    · simp [unsub, hm, emit, hc, emitsEnvelope]
    · have hc2 : s.isConnected = true := by
        revert hc; cases s.isConnected <;> simp
      simp [unsub, hm, emit, hc2, emitsEnvelope]
  · intro hm
    by_cases hc : s.isConnected = false
    · simp [pub, hm, emit, hc, emitsEnvelope]
    · have hc2 : s.isConnected = true := by
        revert hc; cases s.isConnected <;> simp
      simp [pub, hm, emit, hc2, emitsEnvelope]

/-- Witness for C8: every guard branch at a concrete state subscribed to
`alpha` only. -/
theorem topic_layer_guards_witness :
    (sub defaultOptions subscribedState topicA tsSample =
      { state := subscribedState, emitted := none, warned := true }) ∧
    ((sub defaultOptions subscribedState topicB tsSample).warned = false ∧
      (sub defaultOptions subscribedState topicB tsSample).state.subscriptions =
        subscribedState.subscriptions ++ [topicB] ∧
      emitsEnvelope defaultOptions subscribedState
        (sub defaultOptions subscribedState topicB tsSample)
        { timestamp := tsSample, event := subscribeEvent
          data := some (Json.obj [(topicKey, Json.str topicB)]) }) ∧
    (unsub defaultOptions subscribedState topicB tsSample =
      { state := subscribedState, emitted := none, warned := true }) ∧
    ((unsub defaultOptions subscribedState topicA tsSample).warned = false) ∧
    (pub defaultOptions subscribedState topicB (some (Json.num 1)) tsSample =
      { state := subscribedState, emitted := none, warned := true }) ∧
    ((pub defaultOptions subscribedState topicA (some (Json.num 1))
       tsSample).state.subscriptions = subscribedState.subscriptions) :=
  ⟨(topic_layer_guards defaultOptions subscribedState topicA tsSample
      none).1 (by decide),
   (topic_layer_guards defaultOptions subscribedState topicB tsSample
      none).2.1 (by decide),
   (topic_layer_guards defaultOptions subscribedState topicB tsSample
      none).2.2.1 (by decide),
   ((topic_layer_guards defaultOptions subscribedState topicA tsSample
      none).2.2.2.1 (by decide)).1,
   (topic_layer_guards defaultOptions subscribedState topicB tsSample
      (some (Json.num 1))).2.2.2.2.1 (by decide),
   ((topic_layer_guards defaultOptions subscribedState topicA tsSample
      (some (Json.num 1))).2.2.2.2.2 (by decide)).2.1⟩

/-! ## Lifecycle invariant helpers -/

theorem reconnect_subscriptions (o : Options) (s : ClientState) :
    ((reconnect o s).1).subscriptions = s.subscriptions := by
  unfold reconnect
  split
  · split
    · rfl
    · rfl
  · rfl

theorem step_shouldReconnect_false (o : Options) (s : ClientState)
    (op : ClientOp) (h : s.shouldReconnect = false) :
    ((step o s op).1).shouldReconnect = false := by
  cases op with
  | openSig =>
    simp only [step, openSignal, flushQueue]
    split <;> simpa using h
  | closeSig => simp [step, closeSignal, reconnect, h]
  | errorSig => exact h
  | messageSig f =>
    simp only [step, messageSignal]
    cases hd : decodeFrame o f with
    | ok j =>
      simp only []
      split <;> simpa using h
    | error e => simpa using h
  | timerFire =>
    simp only [step, reconnectTimerFire, connection]
    split <;> simpa using h
  | disconnectOp => rfl
  | emitOp n d ts =>
    simp only [step, emit]
    split <;> simpa using h
  | subOp t ts =>
    simp only [step, sub]
    split
    · simpa using h
    · simp only [emit]
      split <;> simpa using h
  | unsubOp t ts =>
    simp only [step, unsub]
    split
    · simp only [emit]
      split <;> simpa using h
    · simpa using h
  | pubOp t d ts =>
    simp only [step, pub]
    split
    · simp only [emit]
      split <;> simpa using h
    · simpa using h

theorem runOps_shouldReconnect_false (o : Options) (ops : List ClientOp) :
    ∀ s, s.shouldReconnect = false →
      (runOps o s ops).shouldReconnect = false := by
  induction ops with
  | nil => intro s h; simpa [runOps] using h
  | cons op ops ih =>
    intro s h
    simp only [runOps]
    exact ih _ (step_shouldReconnect_false o s op h)

theorem closeSignal_suppressed (o : Options) (s : ClientState)
    (h : s.shouldReconnect = false) :
    closeSignal o s =
      ({ s with isConnected := false
                status := ConnectionStatus.disconnected },
        [Dispatch.disconnect]) := by
  simp [closeSignal, h]

theorem step_no_reconnect_dispatch (o : Options) (s : ClientState)
    (op : ClientOp) (h : s.shouldReconnect = false) (n : Nat) :
    ¬(Dispatch.reconnectAttempt n ∈ (step o s op).2) := by
  cases op with
  | openSig => simp [step, openSignal, flushQueue]
  | closeSig => rw [show step o s ClientOp.closeSig = closeSignal o s from rfl,
      closeSignal_suppressed o s h]; simp
  | errorSig => simp [step]
  | messageSig f =>
    simp only [step, messageSignal]
    cases hd : decodeFrame o f with
    | ok j => simp
    | error e => simp
  | timerFire => simp [step]
  | disconnectOp => simp [step]
  | emitOp m d ts => simp [step]
  | subOp t ts => simp [step]
  | unsubOp t ts => simp [step]
  | pubOp t d ts => simp [step]

/-- Claim C9: no connection-lifecycle transition modifies the
subscription set: `disconnect()`, the close listener, and the
reconnection algorithm leave it exactly as it was, and every client
operation other than `sub` and `unsub` preserves it. -/
theorem lifecycle_preserves_subscriptions (o : Options) (s : ClientState) :
    (disconnect s).subscriptions = s.subscriptions ∧
    ((closeSignal o s).1).subscriptions = s.subscriptions ∧
    ((reconnect o s).1).subscriptions = s.subscriptions ∧
    (∀ op : ClientOp,
      (∀ t ts, ¬(op = ClientOp.subOp t ts)) →
      (∀ t ts, ¬(op = ClientOp.unsubOp t ts)) →
      ((step o s op).1).subscriptions = s.subscriptions) := by
  have hclose : ((closeSignal o s).1).subscriptions = s.subscriptions := by
    simp only [closeSignal]
    split
    · exact reconnect_subscriptions o _
    · rfl
  refine ⟨rfl, hclose, reconnect_subscriptions o s, ?_⟩
  intro op h1 h2
  cases op with
  | subOp t ts => exact absurd rfl (h1 t ts)
  | unsubOp t ts => exact absurd rfl (h2 t ts)
  | openSig =>
    simp only [step, openSignal, flushQueue]
    split <;> rfl
  | closeSig => exact hclose
  | errorSig => rfl
  | messageSig f =>
    simp only [step, messageSignal]
    cases hd : decodeFrame o f with
    | ok j =>
      simp only []
      split <;> rfl
    | error e => rfl
  | timerFire =>
    simp only [step, reconnectTimerFire, connection]
    split <;> rfl
  | disconnectOp => rfl
  | emitOp n d ts =>
    simp only [step, emit]
    split <;> rfl
  | pubOp t d ts =>
    simp only [step, pub]
    split
    · simp only [emit]
      split <;> rfl
    · rfl

/-- Witness for C9 at a concrete subscribed state and non-topic
operations. -/
theorem lifecycle_preserves_subscriptions_witness :
    ((step defaultOptions subscribedState ClientOp.closeSig).1).subscriptions =
      subscribedState.subscriptions ∧
    ((step defaultOptions subscribedState ClientOp.timerFire).1).subscriptions =
      subscribedState.subscriptions :=
  ⟨(lifecycle_preserves_subscriptions defaultOptions
      subscribedState).2.2.2 ClientOp.closeSig
      (fun t ts => by simp) (fun t ts => by simp),
    (lifecycle_preserves_subscriptions defaultOptions
      subscribedState).2.2.2 ClientOp.timerFire
      (fun t ts => by simp) (fun t ts => by simp)⟩

/-- Claim C10: once `disconnect()` has been invoked, the suppression flag
is false and stays false across every subsequent operation, any later
close signal dispatches only `disconnect` (the reconnection algorithm is
not triggered), and no operation ever produces a `reconnect_attempt`
dispatch for the remaining lifetime of the client. -/
theorem disconnect_permanently_suppresses (o : Options) (s : ClientState)
    (ops : List ClientOp) :
    (disconnect s).shouldReconnect = false ∧
    (runOps o (disconnect s) ops).shouldReconnect = false ∧
    (closeSignal o (runOps o (disconnect s) ops)).2 =
      [Dispatch.disconnect] ∧
    (∀ op n, ¬(Dispatch.reconnectAttempt n ∈
      (step o (runOps o (disconnect s) ops) op).2)) := by
  have h0 : (disconnect s).shouldReconnect = false := rfl
  have h1 := runOps_shouldReconnect_false o ops (disconnect s) h0
  refine ⟨h0, h1, ?_, ?_⟩
  · rw [closeSignal_suppressed o _ h1]
  · intro op n
    exact step_no_reconnect_dispatch o _ op h1 n

/-- Witness for C10 at a reconnect-enabled configuration and a concrete
post-disconnect run. -/
theorem disconnect_permanently_suppresses_witness :
    (disconnect connectedState).shouldReconnect = false ∧
    (runOps c1Options (disconnect connectedState)
      [ClientOp.closeSig]).shouldReconnect = false ∧
    (closeSignal c1Options (runOps c1Options (disconnect connectedState)
      [ClientOp.closeSig])).2 = [Dispatch.disconnect] ∧
    ¬(Dispatch.reconnectAttempt 1 ∈
      (step c1Options (runOps c1Options (disconnect connectedState)
        [ClientOp.closeSig]) ClientOp.closeSig).2) :=
  ⟨(disconnect_permanently_suppresses c1Options connectedState
      [ClientOp.closeSig]).1,
    (disconnect_permanently_suppresses c1Options connectedState
      [ClientOp.closeSig]).2.1,
    (disconnect_permanently_suppresses c1Options connectedState
      [ClientOp.closeSig]).2.2.1,
    (disconnect_permanently_suppresses c1Options connectedState
      [ClientOp.closeSig]).2.2.2 ClientOp.closeSig 1⟩

/-- Claim C1: with `reconnect` enabled and `reconnectAttempts = 3`, a run
of consecutive close signals, each followed by a failed open, produces
exactly the reconnection dispatches `reconnect_attempt 1, 2, 3` followed
by exactly one `reconnect_failed 3`; afterwards no reconnection timer is
pending and the timer callback is a no-op, so no further attempts occur
until a connection is established externally. -/
theorem reconnect_ceiling :
    ((runTrace c1Options connectedState c1Ops).2).filter
        isReconnectDispatch =
      [Dispatch.reconnectAttempt 1, Dispatch.reconnectAttempt 2,
       Dispatch.reconnectAttempt 3, Dispatch.reconnectFailed 3] ∧
    (runTrace c1Options connectedState c1Ops).1.pendingReconnectTimer =
      false ∧
    reconnectTimerFire (runTrace c1Options connectedState c1Ops).1 =
      (runTrace c1Options connectedState c1Ops).1 :=
  ⟨rfl, rfl, rfl⟩

/-- C2 evaluated at its failing input: after a close signal schedules the
reconnection delay and `disconnect()` then sets the suppression flag, the
already-scheduled `setTimeout(() => this.connection())` callback still
constructs a new transport when it fires — the body performs no status or
suppression re-check, contradicting the claim. -/
theorem reconnect_timer_resurrects_after_disconnect :
    (disconnect c2PendingState).shouldReconnect = false ∧
    (disconnect c2PendingState).status = ConnectionStatus.disconnected ∧
    (disconnect c2PendingState).pendingReconnectTimer = true ∧
    (reconnectTimerFire (disconnect c2PendingState)).socketsOpened =
      (disconnect c2PendingState).socketsOpened + 1 :=
  ⟨rfl, rfl, rfl, rfl⟩

/-- Claim C3: every `emit` call made while the client is not connected
appends exactly one envelope to the outbound queue and resolves
immediately; the queue holds the envelopes in call order, and on the next
successful open `flushQueue` attempts the sends in exactly that order and
then clears the queue. -/
theorem emit_queue_fifo (o : Options) (s : ClientState)
    (calls : List EmitCall) (h : s.isConnected = false) :
    (emitRun o s calls).1.eventQueue =
      s.eventQueue ++ calls.map mkMessage ∧
    (emitRun o s calls).2 =
      calls.map (fun _ => EmitOutcome.queuedResolved) ∧
    (emitRun o s calls).1.isConnected = false ∧
    (openSignal o (emitRun o s calls).1).2.2 =
      (s.eventQueue ++ calls.map mkMessage).map (encodeMessage o) ∧
    (openSignal o (emitRun o s calls).1).1.eventQueue = [] := by
  have main : ∀ cs : List EmitCall, ∀ st : ClientState,
      st.isConnected = false →
      (emitRun o st cs).1.eventQueue = st.eventQueue ++ cs.map mkMessage ∧
      (emitRun o st cs).2 = cs.map (fun _ => EmitOutcome.queuedResolved) ∧
      (emitRun o st cs).1.isConnected = false := by
    intro cs
    induction cs with
    | nil => intro st hst; simp [emitRun, hst]
    | cons c cs2 ih =>
      intro st hst
      have he : emit o st c.eventName c.data c.ts =
          ({ st with eventQueue := st.eventQueue ++ [mkMessage c] },
            EmitOutcome.queuedResolved) := by
        simp [emit, hst, mkMessage]
      obtain ⟨q, outs, conn⟩ :=
        ih { st with eventQueue := st.eventQueue ++ [mkMessage c] }
          (by simpa using hst)
      refine ⟨?_, ?_, ?_⟩
      · simp [emitRun, he, q]
      · simp [emitRun, he, outs]
      · simpa [emitRun, he] using conn
  obtain ⟨hq, houts, hconn⟩ := main calls s h
  refine ⟨hq, houts, hconn, ?_, ?_⟩
  · simp [openSignal, flushQueue, hq]
  · simp [openSignal, flushQueue]

/-- Witness for C3: two concrete queued emits followed by an open. -/
theorem emit_queue_fifo_witness :
    disconnectedState.isConnected = false ∧
    ((emitRun defaultOptions disconnectedState sampleCalls).1.eventQueue =
        disconnectedState.eventQueue ++ sampleCalls.map mkMessage ∧
      (emitRun defaultOptions disconnectedState sampleCalls).2 =
        sampleCalls.map (fun _ => EmitOutcome.queuedResolved) ∧
      (emitRun defaultOptions disconnectedState
        sampleCalls).1.isConnected = false ∧
      (openSignal defaultOptions
          (emitRun defaultOptions disconnectedState sampleCalls).1).2.2 =
        (disconnectedState.eventQueue ++ sampleCalls.map mkMessage).map
          (encodeMessage defaultOptions) ∧
      (openSignal defaultOptions
        (emitRun defaultOptions disconnectedState
          sampleCalls).1).1.eventQueue = []) :=
  ⟨rfl, emit_queue_fifo defaultOptions disconnectedState sampleCalls rfl⟩

/-- Claim C4: encoding an envelope through the message codec (JSON
serialization, optionally followed by compression) and decoding the
result (optional decompression followed by JSON parsing) yields the
original envelope: the parsed value's `event` and `data` fields equal the
originals and the `timestamp` is the identical string — both with
compression enabled (for any compressor whose decompress inverts its
compress, the collaborator contract) and with compression disabled. -/
theorem codec_roundtrip (m : IMessage) (c : ICompressor)
    (hc : ∀ str : List Char,
      c.decompress (c.compress str) = Except.ok str) :
    decodeFrame (compressedOptions c)
        (encodeMessage (compressedOptions c) m) =
      Except.ok (encodeIMessage m) ∧
    decodeFrame defaultOptions (encodeMessage defaultOptions m) =
      Except.ok (encodeIMessage m) ∧
    Json.getField (encodeIMessage m) eventKey =
      some (Json.str m.event) ∧
    Json.getField (encodeIMessage m) dataKey = m.data ∧
    Json.getField (encodeIMessage m) timestampKey =
      some (Json.str m.timestamp) := by
  refine ⟨?_, ?_, ?_, ?_, ?_⟩
  · simp [compressedOptions, encodeMessage, decodeFrame, hc,
      serializeMessage, jsonParse_render]
  · simp [defaultOptions, encodeMessage, decodeFrame, serializeMessage,
      jsonParse_render]
  · cases m.data <;>
      simp [encodeIMessage, Json.getField, lookupMember,
        (by decide : ¬(timestampKey = eventKey))]
  · cases hd : m.data <;>
      simp [encodeIMessage, Json.getField, lookupMember, hd,
        (by decide : ¬(timestampKey = dataKey)),
        (by decide : ¬(eventKey = dataKey))]
  · cases m.data <;>
      simp [encodeIMessage, Json.getField, lookupMember]

/-- Witness for C4 at a concrete envelope and a concrete compressor whose
decompress inverts its compress. -/
theorem codec_roundtrip_witness :
    decodeFrame (compressedOptions codePointCompressor)
        (encodeMessage (compressedOptions codePointCompressor)
          sampleMessage) =
      Except.ok (encodeIMessage sampleMessage) ∧
    decodeFrame defaultOptions
        (encodeMessage defaultOptions sampleMessage) =
      Except.ok (encodeIMessage sampleMessage) ∧
    Json.getField (encodeIMessage sampleMessage) eventKey =
      some (Json.str sampleMessage.event) ∧
    Json.getField (encodeIMessage sampleMessage) dataKey =
      sampleMessage.data ∧
    Json.getField (encodeIMessage sampleMessage) timestampKey =
      some (Json.str sampleMessage.timestamp) :=
  codec_roundtrip sampleMessage codePointCompressor (fun str => by
    have h : Char.ofNat ∘ Char.toNat = id := funext Char.ofNat_toNat
    simp [codePointCompressor, List.map_map, h])

/-- Claim C5: any failure in the inbound decode path (blob
materialization, decompression, or JSON parsing; UTF-8 text decoding is
total) is caught and converted into a single `error` dispatch carrying
the human-readable message and the underlying cause; the failure does not
propagate out of the message handler (the handler is a total function),
and the offending frame is discarded: neither a wildcard nor a
named-event dispatch occurs for it. -/
theorem decode_failure_isolated (o : Options) (s : ClientState)
    (f : Frame) (e : DecodeError)
    (h : decodeFrame o f = Except.error e) :
    messageSignal o s f =
      (s, [Dispatch.parseError parseFailMessage e]) ∧
    (∀ j, ¬(Dispatch.wildcard j ∈ (messageSignal o s f).2)) ∧
    (∀ ev j, ¬(Dispatch.named ev j ∈ (messageSignal o s f).2)) := by
  have h1 : messageSignal o s f =
      (s, [Dispatch.parseError parseFailMessage e]) := by
    simp [messageSignal, h]
  exact ⟨h1, fun j => by simp [h1], fun ev j => by simp [h1]⟩

/-- Witness for C5: a truncated text frame fails to parse and yields only
the structured error dispatch. -/
theorem decode_failure_isolated_witness :
    decodeFrame defaultOptions (Frame.text ['[']) =
      Except.error DecodeError.parseFailure ∧
    messageSignal defaultOptions disconnectedState (Frame.text ['[']) =
      (disconnectedState,
        [Dispatch.parseError parseFailMessage DecodeError.parseFailure]) :=
  ⟨rfl,
    (decode_failure_isolated defaultOptions disconnectedState
      (Frame.text ['[']) DecodeError.parseFailure rfl).1⟩

end WSClient
